import Mathlib

/-!
Shallow embedding of the partition-table tooling of the esp32c3x4 repository:
the entry decoder and table walker of `analyze_flash.py` (`parse_partition_table`),
the table scanner of `search_partition_table.py` (`find_partition_table`),
the boot-selector builders of `create_otadata.py` and `create_correct_otadata.py`,
and a CRC-32 model matching `binascii.crc32`.  Byte buffers are `List Nat` with
each element a byte value; machine integers are `Nat` with explicit bounds.
-/

namespace ESP32

/-- Little-endian 16-bit value of the first two bytes, as read by `struct.unpack`
with format `<H`. -/
def le16 (l : List Nat) : Nat := l.getD 0 0 + 256 * l.getD 1 0

/-- Little-endian 32-bit value of the first four bytes, as read by `struct.unpack`
with format `<I`. -/
def le32 (l : List Nat) : Nat :=
  l.getD 0 0 + 256 * l.getD 1 0 + 65536 * l.getD 2 0 + 16777216 * l.getD 3 0

/-- The four little-endian bytes of a 32-bit value, as written by `struct.pack`
with format `<I`. -/
def pack4 (x : Nat) : List Nat := [x % 256, x / 256 % 256, x / 65536 % 256, x / 16777216 % 256]

/-- ASCII decoding with errors ignored (`bytes.decode` in the sources): keep only
the bytes below 128. -/
def asciiIgnore (l : List Nat) : List Nat := l.filter (fun b => b < 128)

/-- Python `str.rstrip` with a NUL argument: drop trailing NUL bytes. -/
def rstripNul (l : List Nat) : List Nat := (l.reverse.dropWhile (fun b => b == 0)).reverse

/-- Label extraction of both parsers: take bytes 12..27 of the window, decode as
ASCII ignoring errors, and strip trailing NULs. -/
def decodeLabel (w : List Nat) : List Nat := rstripNul (asciiIgnore ((w.drop 12).take 16))

/-- Lowercase hexadecimal digit character. -/
def hexChar (n : Nat) : Char :=
  if n = 0 then '0' else if n = 1 then '1' else if n = 2 then '2' else if n = 3 then '3'
  else if n = 4 then '4' else if n = 5 then '5' else if n = 6 then '6' else if n = 7 then '7'
  else if n = 8 then '8' else if n = 9 then '9' else if n = 10 then 'a' else if n = 11 then 'b'
  else if n = 12 then 'c' else if n = 13 then 'd' else if n = 14 then 'e' else 'f'

/-- Uppercase hexadecimal digit character. -/
def hexCharU (n : Nat) : Char :=
  if n = 0 then '0' else if n = 1 then '1' else if n = 2 then '2' else if n = 3 then '3'
  else if n = 4 then '4' else if n = 5 then '5' else if n = 6 then '6' else if n = 7 then '7'
  else if n = 8 then '8' else if n = 9 then '9' else if n = 10 then 'A' else if n = 11 then 'B'
  else if n = 12 then 'C' else if n = 13 then 'D' else if n = 14 then 'E' else 'F'

/-- Python two-digit lowercase hexadecimal formatting of a byte value. -/
def hex2 (n : Nat) : String := String.mk [hexChar (n / 16 % 16), hexChar (n % 16)]

/-- Python two-digit uppercase hexadecimal formatting of a byte value. -/
def hex2U (n : Nat) : String := String.mk [hexCharU (n / 16 % 16), hexCharU (n % 16)]

/-- The type table of `parse_partition_table` (`analyze_flash.py` line 36), with the
`type_<hex>` fallback. -/
def type_name (pt : Nat) : String :=
  if pt = 0x00 then "app" else if pt = 0x01 then "data" else "type_" ++ hex2 pt

/-- The subtype naming of `parse_partition_table` (`analyze_flash.py` lines 41-60);
the name starts as the empty string and is only reassigned when `ptype` is 0 or 1. -/
def subtype_name (pt st : Nat) : String :=
  if pt = 0x00 then
    if st = 0x00 then "factory" else if st = 0x10 then "ota_0" else if st = 0x11 then "ota_1"
    else if st = 0x12 then "ota_2" else if st = 0x20 then "test" else "subtype_" ++ hex2 st
  else if pt = 0x01 then
    if st = 0x00 then "ota" else if st = 0x01 then "phy" else if st = 0x02 then "nvs"
    else if st = 0x03 then "coredump" else if st = 0x04 then "nvs_keys" else if st = 0x05 then "efuse"
    else if st = 0x82 then "spiffs" else if st = 0x83 then "fat" else "subtype_" ++ hex2 st
  else ""

/-- The scanner type rendering (`search_partition_table.py` line 77). -/
def scanTypeStr (pt : Nat) : String :=
  if pt = 0x00 then "app" else if pt = 0x01 then "data" else "0x" ++ hex2U pt

/-- The scanner subtype rendering (`search_partition_table.py` lines 79-93). -/
def scanSubtypeStr (pt st : Nat) : String :=
  if pt = 0x00 then
    if st = 0x00 then "factory" else if st = 0x10 then "ota_0" else if st = 0x11 then "ota_1"
    else "0x" ++ hex2U st
  else if pt = 0x01 then
    if st = 0x00 then "ota" else if st = 0x01 then "phy" else if st = 0x02 then "nvs"
    else if st = 0x82 then "spiffs" else "0x" ++ hex2U st
  else "0x" ++ hex2U st

/-- The dictionary appended by `parse_partition_table` (`analyze_flash.py` lines 62-69). -/
structure PEntry where
  label : List Nat
  type : String
  subtype : String
  offset : Nat
  size : Nat
  flags : Nat
deriving DecidableEq

/-- The dictionary appended by the scanner inner loop (`search_partition_table.py`
lines 35-41); it keeps the raw type and subtype bytes and has no flags field. -/
structure SEntry where
  label : List Nat
  type : Nat
  subtype : Nat
  offset : Nat
  size : Nat
deriving DecidableEq

/-- One element of the scanner result list (`search_partition_table.py` lines 51-54). -/
structure TableLocation where
  location : Nat
  partitions : List SEntry
deriving DecidableEq

/-- Field extraction of a valid 32-byte window in `parse_partition_table`
(`analyze_flash.py` lines 29-69). -/
def decodeP (w : List Nat) : PEntry :=
  { label := decodeLabel w
  , type := type_name (w.getD 2 0)
  , subtype := subtype_name (w.getD 2 0) (w.getD 3 0)
  , offset := le32 (w.drop 4)
  , size := le32 (w.drop 8)
  , flags := le32 (w.drop 28) }

/-- Field extraction of a valid 32-byte window in the scanner inner loop
(`search_partition_table.py` lines 27-41). -/
def decodeS (w : List Nat) : SEntry :=
  { label := decodeLabel w
  , type := w.getD 2 0
  , subtype := w.getD 3 0
  , offset := le32 (w.drop 4)
  , size := le32 (w.drop 8) }

/-- Fuel-indexed body of `parse_partition_table` (`analyze_flash.py` lines 12-73):
the loop reads 32-byte windows; a window whose little-endian magic is 0x50AA is
collected, a 0xFFFF magic stops the loop, and any other magic is skipped (the loop
advances by 32 bytes and continues). -/
def parsePTAux : Nat → List Nat → List PEntry
  | 0, _ => []
  | fuel + 1, data =>
    if data.length < 32 then []
    else if le16 data = 0x50AA then decodeP (data.take 32) :: parsePTAux fuel (data.drop 32)
    else if le16 data = 0xFFFF then []
    else parsePTAux fuel (data.drop 32)

/-- The `parse_partition_table` function of `analyze_flash.py`; each loop iteration consumes
32 bytes, so `data.length + 1` steps of fuel always suffice. -/
def parse_partition_table (data : List Nat) : List PEntry := parsePTAux (data.length + 1) data

/-- Fuel-indexed inner parse loop of `find_partition_table`
(`search_partition_table.py` lines 22-48): collect windows with little-endian magic
0xAA50 whose decoded offset and size are strictly between 0 and the image length, and
stop at the first window failing the magic test or the bounds test. -/
def scanEntriesAux : Nat → List Nat → Nat → List SEntry
  | 0, _, _ => []
  | fuel + 1, data, pos =>
    if pos + 32 ≤ data.length then
      if le16 ((data.drop pos).take 32) = 0xAA50 then
        if 0 < (decodeS ((data.drop pos).take 32)).offset ∧
            (decodeS ((data.drop pos).take 32)).offset < data.length ∧
            0 < (decodeS ((data.drop pos).take 32)).size ∧
            (decodeS ((data.drop pos).take 32)).size < data.length then
          decodeS ((data.drop pos).take 32) :: scanEntriesAux fuel data (pos + 32)
        else []
      else if le16 ((data.drop pos).take 32) = 0xFFFF then [] else []
    else []

/-- The scanner inner parse loop started at byte position `pos`. -/
def scanEntries (data : List Nat) (pos : Nat) : List SEntry :=
  scanEntriesAux (data.length + 1) data pos

/-- Fuel-indexed outer loop of `find_partition_table` (`search_partition_table.py`
lines 11-54): candidate offsets advance in 0x1000-byte strides; a candidate whose
2-byte little-endian magic is 0xAA50 and whose inner parse yields at least one entry
is reported. -/
def findPTAux : Nat → List Nat → Nat → List TableLocation
  | 0, _, _ => []
  | fuel + 1, data, offset =>
    if offset + 32 > data.length then []
    else if le16 (data.drop offset) = 0xAA50 then
      if scanEntries data offset = [] then findPTAux fuel data (offset + 0x1000)
      else { location := offset, partitions := scanEntries data offset }
        :: findPTAux fuel data (offset + 0x1000)
    else findPTAux fuel data (offset + 0x1000)

/-- The `find_partition_table` function of `search_partition_table.py`. -/
def find_partition_table (data : List Nat) : List TableLocation :=
  findPTAux (data.length + 1) data 0

/-- The reflected CRC-32 polynomial used by `binascii.crc32`. -/
def CRC_POLY : Nat := 0xEDB88320

/-- One bit step of the reflected CRC-32 algorithm. -/
def crcStep (c : Nat) : Nat := if c % 2 = 1 then c / 2 ^^^ CRC_POLY else c / 2

/-- One byte step: xor the byte into the state and run eight bit steps. -/
def crcByte (c b : Nat) : Nat :=
  crcStep (crcStep (crcStep (crcStep (crcStep (crcStep (crcStep (crcStep (c ^^^ b))))))))

/-- Fold of `crcByte` over a byte list. -/
def crcAux : List Nat → Nat → Nat
  | [], c => c
  | b :: bs, c => crcAux bs (crcByte c b)

/-- Model of `binascii.crc32`: init 0xFFFFFFFF, reflected polynomial 0xEDB88320,
final xor 0xFFFFFFFF. -/
def crc32 (data : List Nat) : Nat := crcAux data 0xFFFFFFFF ^^^ 0xFFFFFFFF

/-- Python slice assignment `l[off:off+len(v)] = v` (the value has exactly the
length of the slice in every use in the sources). -/
def setSlice (l : List Nat) (off : Nat) (v : List Nat) : List Nat :=
  l.take off ++ v ++ l.drop (off + v.length)

/-- The `ota_map` dictionary of `create_otadata.py` lines 28-32. -/
def otaMap (t : String) : Option Nat :=
  if t = "ota_0" then some 0 else if t = "ota_1" then some 1
  else if t = "ota_2" then some 2 else none

/-- The `create_otadata` function of `create_otadata.py` lines 10-58; the `ValueError`
raise on an unknown target is modelled as `none`. -/
def create_otadata (t : String) : Option (List Nat) :=
  match otaMap t with
  | none => none
  | some otaSeq =>
    let seq := 1
    let entryData := pack4 seq ++ pack4 otaSeq
    let crc := crc32 entryData &&& 0xFFFFFFFF
    let buf := List.replicate 0x2000 0xFF
    let buf := setSlice buf 0 (pack4 seq)
    let buf := setSlice buf 4 (pack4 otaSeq)
    let buf := setSlice buf 8 (pack4 crc)
    some buf

/-- The `ota_map` dictionary of `create_correct_otadata.py` lines 20-23. -/
def appMap (t : String) : Option Nat :=
  if t = "app0" then some 0 else if t = "app1" then some 1 else none

/-- The `create_otadata_switch` function of `create_correct_otadata.py` lines 10-41;
the `ValueError` raise on an unknown target is modelled as `none`. -/
def create_otadata_switch (t : String) : Option (List Nat) :=
  match appMap t with
  | none => none
  | some otaSeq =>
    let seq := 1
    let entryData := pack4 seq ++ pack4 otaSeq
    let crc := crc32 entryData &&& 0xFFFFFFFF
    let buf := List.replicate 0x2000 0xFF
    let buf := setSlice buf 0 (pack4 seq)
    let buf := setSlice buf 4 (pack4 otaSeq)
    let buf := setSlice buf 8 (pack4 crc)
    some buf

/-- The decoded boot-selector record of the spec data model (§3). -/
structure SelectorRecord where
  sequence : Nat
  selected_index : Nat
deriving DecidableEq

/-- Modelled from the spec: `SelectorCodec.validate` (§4.4) has no implementation in
the source tree — the otadata section of `full_check.py` (lines 16-34) only decodes
and prints the three fields.  Per the spec, `validate` recomputes CRC-32 over the
first 8 bytes of the 12-byte record, compares it with the little-endian checksum
stored in bytes 8..11, fails on mismatch, and on success returns the decoded
`sequence` and `selected_index`. -/
def validate (r : List Nat) : Option SelectorRecord :=
  if crc32 (r.take 8) = le32 (r.drop 8) then
    some { sequence := le32 (r.take 4), selected_index := le32 ((r.drop 4).take 4) }
  else none

/-- The abstract partition entry of the spec data model (§3): raw byte-valued type and subtype codes,
32-bit offset, size and flags, and a label of at most 16 ASCII bytes. -/
structure PartitionEntry where
  label : List Nat
  part_type : Nat
  subtype : Nat
  offset : Nat
  size : Nat
  flags : Nat
deriving DecidableEq

/-- The entry decode step of `parse_partition_table` (`analyze_flash.py` lines 26-34)
as a standalone codec returning the raw fields: a window is a valid entry exactly when
its little-endian 16-bit magic equals 0x50AA. -/
def decode_entry (w : List Nat) : Option PartitionEntry :=
  if le16 w = 0x50AA then
    some { label := decodeLabel w
         , part_type := w.getD 2 0
         , subtype := w.getD 3 0
         , offset := le32 (w.drop 4)
         , size := le32 (w.drop 8)
         , flags := le32 (w.drop 28) }
  else none

/-- Modelled from the spec: `EntryCodec.encode` (§4.1) has no implementation in the
source tree; the spec defines it as the inverse of `decode` over the fixed 32-byte
wire layout of §6 — magic, part_type, subtype, little-endian offset and size, the
NUL-padded 16-byte label, and little-endian flags.  The 2-byte magic is written in
the byte order the source decoder accepts (`parse_partition_table` compares the
little-endian magic with 0x50AA, i.e. bytes `AA 50`). -/
def encode (e : PartitionEntry) : List Nat :=
  [0xAA, 0x50, e.part_type, e.subtype] ++ pack4 e.offset ++ pack4 e.size
    ++ (e.label ++ List.replicate (16 - e.label.length) 0) ++ pack4 e.flags

/-- Xor one bit into byte `j` of a record (bit `k` of that byte). -/
def flipBit (r : List Nat) (j k : Nat) : List Nat := r.set j (r.getD j 0 ^^^ (1 <<< k))

/-- Pointwise xor of two byte lists. -/
def zipXor (a b : List Nat) : List Nat := List.zipWith (fun x y => x ^^^ y) a b

/-- A 64-byte image whose first window is a scanner-valid entry with
`offset = 63` and `size = 63`, followed by an all-zero window. -/
def img64 : List Nat :=
  (0x50 :: 0xAA :: 0 :: 0 :: 63 :: 0 :: 0 :: 0 :: 63 :: 0 :: 0 :: 0 :: List.replicate 20 0)
    ++ List.replicate 32 0

/-! ### Generic list and byte lemmas -/

lemma getD_take (l : List Nat) (i n d : Nat) (h : i < n) : (l.take n).getD i d = l.getD i d := by
  simp [List.getD_eq_getElem?_getD, List.getElem?_take_of_lt h]

lemma getD_append_left (l r : List Nat) (i d : Nat) (h : i < l.length) :
    (l ++ r).getD i d = l.getD i d := by
  simp [List.getD_eq_getElem?_getD, List.getElem?_append_left h]

lemma getD_append_right (l r : List Nat) (i d : Nat) (h : l.length ≤ i) :
    (l ++ r).getD i d = r.getD (i - l.length) d := by
  simp [List.getD_eq_getElem?_getD, List.getElem?_append_right h]

lemma getD_mem (l : List Nat) (i d : Nat) (h : i < l.length) : l.getD i d ∈ l := by
  rw [List.getD_eq_getElem?_getD, List.getElem?_eq_getElem h]
  exact List.getElem_mem h

lemma le16_take (l : List Nat) (n : Nat) (h : 2 ≤ n) : le16 (l.take n) = le16 l := by
  unfold le16
  rw [getD_take _ _ _ _ (by omega), getD_take _ _ _ _ (by omega)]

lemma le16_append (l r : List Nat) (h : 2 ≤ l.length) : le16 (l ++ r) = le16 l := by
  unfold le16
  rw [getD_append_left _ _ _ _ (by omega), getD_append_left _ _ _ _ (by omega)]

lemma le16_bytes (l : List Nat) (h0 : l.getD 0 0 < 256) (h1 : l.getD 1 0 < 256) :
    (le16 l = 0x50AA ↔ (l.getD 0 0 = 0xAA ∧ l.getD 1 0 = 0x50)) ∧
    (le16 l = 0xAA50 ↔ (l.getD 0 0 = 0x50 ∧ l.getD 1 0 = 0xAA)) := by
  unfold le16
  omega

lemma pack4_length (x : Nat) : (pack4 x).length = 4 := rfl

lemma le32_pack4_append (x : Nat) (r : List Nat) (h : x < 4294967296) :
    le32 (pack4 x ++ r) = x := by
  simp only [pack4, le32, List.cons_append, List.getD_cons_zero, List.getD_cons_succ]
  omega

/-! ### Fuel congruence and unfolding for `parse_partition_table` -/

lemma parsePTAux_congr : ∀ f g (data : List Nat), data.length ≤ 32 * f →
    data.length ≤ 32 * g → parsePTAux f data = parsePTAux g data := by
  intro f
  induction f with
  | zero =>
    intro g data hf hg
    cases g with
    | zero => rfl
    | succ g =>
      have h : data.length < 32 := by omega
      simp [parsePTAux, h]
  | succ f ih =>
    intro g data hf hg
    cases g with
    | zero =>
      have h : data.length < 32 := by omega
      simp [parsePTAux, h]
    | succ g =>
      simp only [parsePTAux]
      by_cases h32 : data.length < 32
      · rw [if_pos h32, if_pos h32]
      · rw [if_neg h32, if_neg h32,
          ih g (data.drop 32) (by simp; omega) (by simp; omega)]

lemma parsePT_unfold (data : List Nat) :
    parse_partition_table data =
      if data.length < 32 then []
      else if le16 data = 0x50AA then
        decodeP (data.take 32) :: parse_partition_table (data.drop 32)
      else if le16 data = 0xFFFF then []
      else parse_partition_table (data.drop 32) := by
  conv_lhs => rw [parse_partition_table]
  rw [parsePTAux]
  by_cases h32 : data.length < 32
  · rw [if_pos h32, if_pos h32]
  · rw [if_neg h32, if_neg h32]
    by_cases hm : le16 data = 0x50AA
    · rw [if_pos hm, if_pos hm]
      exact congrArg _ (parsePTAux_congr _ _ _ (by simp; omega) (by simp; omega))
    · rw [if_neg hm, if_neg hm]
      by_cases hs : le16 data = 0xFFFF
      · rw [if_pos hs, if_pos hs]
      · rw [if_neg hs, if_neg hs]
        exact parsePTAux_congr _ _ _ (by simp; omega) (by simp; omega)

lemma parsePT_short (data : List Nat) (h : data.length < 32) :
    parse_partition_table data = [] := by
  rw [parsePT_unfold, if_pos h]

lemma parsePT_valid (data : List Nat) (h : 32 ≤ data.length) (hm : le16 data = 0x50AA) :
    parse_partition_table data
      = decodeP (data.take 32) :: parse_partition_table (data.drop 32) := by
  rw [parsePT_unfold, if_neg (by omega), if_pos hm]

lemma parsePT_sentinel (data : List Nat) (h : 32 ≤ data.length) (hm : le16 data = 0xFFFF) :
    parse_partition_table data = [] := by
  rw [parsePT_unfold, if_neg (by omega), if_neg (by rw [hm]; decide), if_pos hm]

lemma parsePT_skip (data : List Nat) (h : 32 ≤ data.length) (hm : le16 data ≠ 0x50AA)
    (hs : le16 data ≠ 0xFFFF) :
    parse_partition_table data = parse_partition_table (data.drop 32) := by
  rw [parsePT_unfold, if_neg (by omega), if_neg hm, if_neg hs]

/-! ### Fuel congruence and facts for the scanner -/

lemma scanAux_congr : ∀ f g (data : List Nat) (pos : Nat), data.length ≤ pos + 32 * f →
    data.length ≤ pos + 32 * g → scanEntriesAux f data pos = scanEntriesAux g data pos := by
  intro f
  induction f with
  | zero =>
    intro g data pos hf hg
    cases g with
    | zero => rfl
    | succ g =>
      have h : ¬ (pos + 32 ≤ data.length) := by omega
      simp [scanEntriesAux, h]
  | succ f ih =>
    intro g data pos hf hg
    cases g with
    | zero =>
      have h : ¬ (pos + 32 ≤ data.length) := by omega
      simp [scanEntriesAux, h]
    | succ g =>
      simp only [scanEntriesAux]
      by_cases hin : pos + 32 ≤ data.length
      · rw [if_pos hin, if_pos hin,
          ih g data (pos + 32) (by omega) (by omega)]
      · rw [if_neg hin, if_neg hin]

lemma scanEntries_unfold (data : List Nat) (pos : Nat) :
    scanEntries data pos =
      if pos + 32 ≤ data.length then
        if le16 ((data.drop pos).take 32) = 0xAA50 then
          if 0 < (decodeS ((data.drop pos).take 32)).offset ∧
              (decodeS ((data.drop pos).take 32)).offset < data.length ∧
              0 < (decodeS ((data.drop pos).take 32)).size ∧
              (decodeS ((data.drop pos).take 32)).size < data.length then
            decodeS ((data.drop pos).take 32) :: scanEntries data (pos + 32)
          else []
        else if le16 ((data.drop pos).take 32) = 0xFFFF then [] else []
      else [] := by
  conv_lhs => rw [scanEntries]
  rw [scanEntriesAux]
  by_cases hin : pos + 32 ≤ data.length
  · rw [if_pos hin, if_pos hin]
    by_cases hm : le16 ((data.drop pos).take 32) = 0xAA50
    · rw [if_pos hm, if_pos hm]
      by_cases hb : 0 < (decodeS ((data.drop pos).take 32)).offset ∧
          (decodeS ((data.drop pos).take 32)).offset < data.length ∧
          0 < (decodeS ((data.drop pos).take 32)).size ∧
          (decodeS ((data.drop pos).take 32)).size < data.length
      · rw [if_pos hb, if_pos hb]
        exact congrArg _ (scanAux_congr _ _ _ _ (by omega) (by omega))
      · rw [if_neg hb, if_neg hb]
    · rw [if_neg hm, if_neg hm]
  · rw [if_neg hin, if_neg hin]

lemma scanEntries_stop (data : List Nat) (pos : Nat) (h : pos + 32 ≤ data.length)
    (hm : le16 ((data.drop pos).take 32) ≠ 0xAA50) : scanEntries data pos = [] := by
  rw [scanEntries_unfold, if_pos h, if_neg hm]
  split <;> rfl

lemma scanEntries_step (data : List Nat) (pos : Nat) (h : pos + 32 ≤ data.length)
    (hm : le16 ((data.drop pos).take 32) = 0xAA50)
    (hb : 0 < (decodeS ((data.drop pos).take 32)).offset ∧
      (decodeS ((data.drop pos).take 32)).offset < data.length ∧
      0 < (decodeS ((data.drop pos).take 32)).size ∧
      (decodeS ((data.drop pos).take 32)).size < data.length) :
    scanEntries data pos = decodeS ((data.drop pos).take 32) :: scanEntries data (pos + 32) := by
  rw [scanEntries_unfold, if_pos h, if_pos hm, if_pos hb]

lemma scanAux_bounds : ∀ f (data : List Nat) (pos : Nat) (e : SEntry),
    e ∈ scanEntriesAux f data pos →
    0 < e.offset ∧ e.offset < data.length ∧ 0 < e.size ∧ e.size < data.length := by
  intro f
  induction f with
  | zero => intro data pos e he; simp [scanEntriesAux] at he
  | succ f ih =>
    intro data pos e he
    simp only [scanEntriesAux] at he
    by_cases hin : pos + 32 ≤ data.length
    · rw [if_pos hin] at he
      by_cases hm : le16 ((data.drop pos).take 32) = 0xAA50
      · rw [if_pos hm] at he
        by_cases hb : 0 < (decodeS ((data.drop pos).take 32)).offset ∧
            (decodeS ((data.drop pos).take 32)).offset < data.length ∧
            0 < (decodeS ((data.drop pos).take 32)).size ∧
            (decodeS ((data.drop pos).take 32)).size < data.length
        · rw [if_pos hb] at he
          rcases List.mem_cons.mp he with rfl | htail
          · exact hb
          · exact ih data (pos + 32) e htail
        · rw [if_neg hb] at he
          simp at he
      · rw [if_neg hm] at he
        split at he <;> simp at he
    · rw [if_neg hin] at he
      simp at he

lemma findPTAux_congr : ∀ f g (data : List Nat) (off : Nat), data.length ≤ off + 4096 * f →
    data.length ≤ off + 4096 * g → findPTAux f data off = findPTAux g data off := by
  intro f
  induction f with
  | zero =>
    intro g data off hf hg
    cases g with
    | zero => rfl
    | succ g =>
      have h : off + 32 > data.length := by omega
      simp [findPTAux, h]
  | succ f ih =>
    intro g data off hf hg
    cases g with
    | zero =>
      have h : off + 32 > data.length := by omega
      simp [findPTAux, h]
    | succ g =>
      simp only [findPTAux]
      by_cases hin : off + 32 > data.length
      · rw [if_pos hin, if_pos hin]
      · rw [if_neg hin, if_neg hin, ih g data (off + 0x1000) (by omega) (by omega)]

lemma findPT_unfold (data : List Nat) (off : Nat) :
    findPTAux (data.length + 1) data off =
      if off + 32 > data.length then []
      else if le16 (data.drop off) = 0xAA50 then
        if scanEntries data off = [] then findPTAux (data.length + 1) data (off + 0x1000)
        else { location := off, partitions := scanEntries data off }
          :: findPTAux (data.length + 1) data (off + 0x1000)
      else findPTAux (data.length + 1) data (off + 0x1000) := by
  conv_lhs => rw [findPTAux]
  by_cases hin : off + 32 > data.length
  · rw [if_pos hin, if_pos hin]
  · rw [if_neg hin, if_neg hin]
    have hc := findPTAux_congr (data.length) (data.length + 1) data (off + 0x1000)
      (by omega) (by omega)
    by_cases hm : le16 (data.drop off) = 0xAA50
    · rw [if_pos hm, if_pos hm]
      by_cases he : scanEntries data off = []
      · rw [if_pos he, if_pos he, hc]
      · rw [if_neg he, if_neg he, hc]
    · rw [if_neg hm, if_neg hm, hc]

lemma findPTAux_inv : ∀ f (data : List Nat) (off : Nat) (loc : TableLocation),
    loc ∈ findPTAux f data off →
    off ≤ loc.location ∧ (loc.location - off) % 4096 = 0 ∧ loc.partitions ≠ [] ∧
      ∀ e ∈ loc.partitions,
        0 < e.offset ∧ e.offset < data.length ∧ 0 < e.size ∧ e.size < data.length := by
  intro f
  induction f with
  | zero => intro data off loc h; simp [findPTAux] at h
  | succ f ih =>
    intro data off loc h
    simp only [findPTAux] at h
    by_cases hin : off + 32 > data.length
    · rw [if_pos hin] at h; simp at h
    · rw [if_neg hin] at h
      by_cases hm : le16 (data.drop off) = 0xAA50
      · rw [if_pos hm] at h
        by_cases he : scanEntries data off = []
        · rw [if_pos he] at h
          have := ih data (off + 0x1000) loc h
          refine ⟨by omega, by omega, this.2.2⟩
        · rw [if_neg he] at h
          rcases List.mem_cons.mp h with rfl | htail
          · refine ⟨Nat.le_refl _, by simp, he, ?_⟩
            intro e hme
            exact scanAux_bounds _ data off e hme
          · have := ih data (off + 0x1000) loc htail
            refine ⟨by omega, by omega, this.2.2⟩
      · rw [if_neg hm] at h
        have := ih data (off + 0x1000) loc h
        refine ⟨by omega, by omega, this.2.2⟩

lemma findPTAux_sorted : ∀ f (data : List Nat) (off : Nat),
    ((findPTAux f data off).map TableLocation.location).Pairwise (· < ·) := by
  intro f
  induction f with
  | zero => intro data off; simp [findPTAux]
  | succ f ih =>
    intro data off
    simp only [findPTAux]
    by_cases hin : off + 32 > data.length
    · rw [if_pos hin]; simp
    · rw [if_neg hin]
      by_cases hm : le16 (data.drop off) = 0xAA50
      · rw [if_pos hm]
        by_cases he : scanEntries data off = []
        · rw [if_pos he]; exact ih data (off + 0x1000)
        · rw [if_neg he]
          simp only [List.map_cons, List.pairwise_cons]
          refine ⟨?_, ih data (off + 0x1000)⟩
          intro x hx
          rcases List.mem_map.mp hx with ⟨loc, hloc, rfl⟩
          have := (findPTAux_inv f data (off + 0x1000) loc hloc).1
          omega
      · rw [if_neg hm]; exact ih data (off + 0x1000)

/-! ### CRC-32 linearity over GF(2) -/

lemma xor_div_two (a b : Nat) : (a ^^^ b) / 2 = a / 2 ^^^ b / 2 := by
  apply Nat.eq_of_testBit_eq
  intro i
  rw [Nat.testBit_div_two, Nat.testBit_xor, Nat.testBit_xor, Nat.testBit_div_two,
    Nat.testBit_div_two]

lemma xor_parity (a b : Nat) : (a ^^^ b) % 2 = (a % 2 + b % 2) % 2 := by
  rw [Nat.xor_mod_two_eq, Nat.add_mod]

lemma xor_left_cancel (a b c : Nat) (h : a ^^^ b = a ^^^ c) : b = c := by
  have h2 := congrArg (fun x => a ^^^ x) h
  simpa [← Nat.xor_assoc, Nat.xor_self, Nat.zero_xor] using h2

lemma xor_xor_cancel (x y p : Nat) : (x ^^^ p) ^^^ (y ^^^ p) = x ^^^ y := by
  rw [Nat.xor_assoc, Nat.xor_comm y p, ← Nat.xor_assoc p p y, Nat.xor_self, Nat.zero_xor]

lemma crcStep_xor (a b : Nat) : crcStep (a ^^^ b) = crcStep a ^^^ crcStep b := by
  unfold crcStep
  rcases Nat.mod_two_eq_zero_or_one a with ha | ha <;>
    rcases Nat.mod_two_eq_zero_or_one b with hb | hb <;>
    rw [xor_parity, ha, hb]
  · rw [if_neg (by omega), if_neg (by omega), if_neg (by omega), xor_div_two]
  · rw [if_pos (by omega), if_neg (by omega), if_pos (by omega), xor_div_two, Nat.xor_assoc]
  · rw [if_pos (by omega), if_pos (by omega), if_neg (by omega), xor_div_two,
      Nat.xor_assoc, Nat.xor_comm (b / 2) CRC_POLY, ← Nat.xor_assoc]
  · rw [if_neg (by omega), if_pos (by omega), if_pos (by omega), xor_div_two, xor_xor_cancel]

lemma crcByte_xor (c1 c2 b1 b2 : Nat) :
    crcByte (c1 ^^^ c2) (b1 ^^^ b2) = crcByte c1 b1 ^^^ crcByte c2 b2 := by
  unfold crcByte
  rw [show (c1 ^^^ c2) ^^^ (b1 ^^^ b2) = (c1 ^^^ b1) ^^^ (c2 ^^^ b2) by
    rw [Nat.xor_assoc c1 c2, ← Nat.xor_assoc c2 b1, Nat.xor_comm c2 b1,
      Nat.xor_assoc b1 c2, ← Nat.xor_assoc c1 b1]]
  simp only [crcStep_xor]

lemma crcAux_xor : ∀ (a b : List Nat) (c d : Nat), a.length = b.length →
    crcAux (zipXor a b) (c ^^^ d) = crcAux a c ^^^ crcAux b d := by
  intro a
  induction a with
  | nil =>
    intro b c d h
    cases b with
    | nil => rfl
    | cons y ys => simp at h
  | cons x xs ih =>
    intro b c d h
    cases b with
    | nil => simp at h
    | cons y ys =>
      show crcAux (zipXor xs ys) (crcByte (c ^^^ d) (x ^^^ y)) = _
      rw [crcByte_xor]
      exact ih ys _ _ (by simpa using h)

lemma zipXor_zero : ∀ (l : List Nat), zipXor l (List.replicate l.length 0) = l := by
  intro l
  induction l with
  | nil => rfl
  | cons x xs ih =>
    show (x ^^^ 0) :: zipXor xs (List.replicate xs.length 0) = x :: xs
    rw [Nat.xor_zero, ih]

lemma zipXor_set : ∀ (l : List Nat) (j v : Nat), j < l.length →
    zipXor l ((List.replicate l.length 0).set j v) = l.set j (l.getD j 0 ^^^ v) := by
  intro l
  induction l with
  | nil => intro j v h; simp at h
  | cons x xs ih =>
    intro j v h
    cases j with
    | zero =>
      show (x ^^^ v) :: zipXor xs (List.replicate xs.length 0) = _
      rw [zipXor_zero]
      rfl
    | succ j =>
      show (x ^^^ 0) :: zipXor xs ((List.replicate xs.length 0).set j v) = _
      rw [Nat.xor_zero, ih j v (by simpa using h)]
      rfl

lemma crc32_zipXor (m e : List Nat) (h : m.length = e.length) :
    crc32 (zipXor m e) = crc32 m ^^^ crcAux e 0 := by
  have h1 : crcAux (zipXor m e) 0xFFFFFFFF = crcAux m 0xFFFFFFFF ^^^ crcAux e 0 := by
    have h2 := crcAux_xor m e 0xFFFFFFFF 0 h
    simpa using h2
  unfold crc32
  rw [h1, Nat.xor_assoc, Nat.xor_comm (crcAux e 0) _, ← Nat.xor_assoc]

set_option maxRecDepth 100000 in
lemma crcDelta_ne_zero : ∀ j < 8, ∀ k < 8,
    crcAux ((List.replicate 8 0).set j (1 <<< k)) 0 ≠ 0 := by decide

/-! ### Label round-trip helpers -/

lemma dropWhile_replicate_zero_append : ∀ (n : Nat) (l : List Nat),
    (List.replicate n 0 ++ l).dropWhile (fun b => b == 0) = l.dropWhile (fun b => b == 0) := by
  intro n
  induction n with
  | zero => intro l; rfl
  | succ n ih =>
    intro l
    rw [List.replicate_succ, List.cons_append, List.dropWhile_cons_of_pos (by rfl)]
    exact ih l

lemma rstripNul_append_replicate (l : List Nat) (n : Nat) :
    rstripNul (l ++ List.replicate n 0) = rstripNul l := by
  unfold rstripNul
  rw [List.reverse_append, List.reverse_replicate, dropWhile_replicate_zero_append]

lemma asciiIgnore_of_bytes (l : List Nat) (h : ∀ b ∈ l, b < 128) : asciiIgnore l = l := by
  unfold asciiIgnore
  rw [List.filter_eq_self]
  intro a ha
  simpa using h a ha

/-! ### Byte-buffer builder helpers -/

lemma getD_replicate (n a i d : Nat) (h : i < n) :
    (List.replicate n a).getD i d = a := by
  simp [List.getD_eq_getElem?_getD, List.getElem?_replicate, h]

lemma pack4_getD (x i : Nat) (h : i < 4) : (pack4 x).getD i 0 < 256 := by
  interval_cases i <;> simp [pack4] <;> omega

lemma pack4_mem (x b : Nat) (h : b ∈ pack4 x) : b < 256 := by
  simp only [pack4, List.mem_cons, List.not_mem_nil, or_false] at h
  rcases h with rfl | rfl | rfl | rfl <;> omega

lemma pack4_mod32 (x : Nat) : pack4 (x % 4294967296) = pack4 x := by
  simp only [pack4, List.cons.injEq, and_true]
  refine ⟨by omega, by omega, by omega, by omega⟩

lemma land_mask32 (x : Nat) : x &&& 0xFFFFFFFF = x % 4294967296 := by
  have h := Nat.and_pow_two_sub_one_eq_mod x 32
  norm_num at h
  exact h

lemma setSlice_chain (i c : Nat) :
    setSlice (setSlice (setSlice (List.replicate 8192 255) 0 (pack4 1)) 4 (pack4 i)) 8
        (pack4 c)
      = pack4 1 ++ pack4 i ++ pack4 c ++ List.replicate 8180 255 := by
  have h1 : setSlice (List.replicate 8192 255) 0 (pack4 1)
      = pack4 1 ++ List.replicate 8188 255 := by
    unfold setSlice
    rw [pack4_length, List.take_zero, List.drop_replicate]
    rfl
  have h2 : setSlice (pack4 1 ++ List.replicate 8188 255) 4 (pack4 i)
      = pack4 1 ++ pack4 i ++ List.replicate 8184 255 := by
    unfold setSlice
    rw [pack4_length, List.take_left' (pack4_length 1)]
    have hd : (pack4 1 ++ List.replicate 8188 255).drop 8
        = List.replicate 8184 255 := by
      rw [show (8 : Nat) = 4 + 4 from rfl, ← List.drop_drop,
        List.drop_left' (pack4_length 1), List.drop_replicate]
    rw [hd, List.append_assoc]
  have h3 : setSlice (pack4 1 ++ pack4 i ++ List.replicate 8184 255) 8 (pack4 c)
      = pack4 1 ++ pack4 i ++ pack4 c ++ List.replicate 8180 255 := by
    unfold setSlice
    have hlen : (pack4 1 ++ pack4 i).length = 8 := by
      rw [List.length_append, pack4_length, pack4_length]
    rw [pack4_length, List.append_assoc (pack4 1) (pack4 i),
      ← List.append_assoc (pack4 1) (pack4 i), List.take_left' hlen]
    have hd : ((pack4 1 ++ pack4 i) ++ List.replicate 8184 255).drop 12
        = List.replicate 8180 255 := by
      rw [show (12 : Nat) = 8 + 4 from rfl, ← List.drop_drop,
        List.drop_left' hlen, List.drop_replicate]
    rw [hd, List.append_assoc (pack4 1 ++ pack4 i)]
  rw [h1, h2, h3]

lemma fourChunks (A B C : List Nat) (hA : A.length = 4) (hB : B.length = 4)
    (hC : C.length = 4) :
    (A ++ B ++ C ++ List.replicate 8180 255).length = 8192 ∧
    (A ++ B ++ C ++ List.replicate 8180 255).take 4 = A ∧
    ((A ++ B ++ C ++ List.replicate 8180 255).drop 4).take 4 = B ∧
    ((A ++ B ++ C ++ List.replicate 8180 255).drop 8).take 4 = C ∧
    (A ++ B ++ C ++ List.replicate 8180 255).take 8 = A ++ B ∧
    ∀ j, 12 ≤ j → j < 8192 → (A ++ B ++ C ++ List.replicate 8180 255).getD j 0 = 255 := by
  have hAB : (A ++ B).length = 8 := by rw [List.length_append, hA, hB]
  have hABC : (A ++ B ++ C).length = 12 := by rw [List.length_append, hAB, hC]
  refine ⟨?_, ?_, ?_, ?_, ?_, ?_⟩
  · simp only [List.length_append, List.length_replicate, hA, hB, hC]
  · rw [List.append_assoc, List.append_assoc, List.take_left' hA]
  · rw [List.append_assoc, List.append_assoc, List.drop_left' hA, List.take_left' hB]
  · rw [List.append_assoc, List.drop_left' hAB, List.take_left' hC]
  · rw [List.append_assoc, List.take_left' hAB]
  · intro j h12 h8192
    rw [getD_append_right _ _ _ _ (by omega), hABC, getD_replicate _ _ _ _ (by omega)]

/-- The layout a selector builder must produce for boot index `i`: it succeeds, the
buffer is 8192 bytes, bytes 0..3 are 1 little-endian, bytes 4..7 are `i` little-endian,
bytes 8..11 are the little-endian CRC-32 of the first 8 bytes, and every byte from
offset 12 on — the whole second slot included — is 0xFF. -/
def SlotSpec (f : String → Option (List Nat)) (t : String) (i : Nat) : Prop :=
  ∃ b, f t = some b ∧ b.length = 8192 ∧ b.take 4 = pack4 1 ∧
    (b.drop 4).take 4 = pack4 i ∧ (b.drop 8).take 4 = pack4 (crc32 (b.take 8)) ∧
    ∀ j, 12 ≤ j → j < 8192 → b.getD j 0 = 0xFF

lemma slot_spec_of_chain (i : Nat) :
    ∀ b, b = setSlice (setSlice (setSlice (List.replicate 8192 255) 0 (pack4 1)) 4
        (pack4 i)) 8 (pack4 (crc32 (pack4 1 ++ pack4 i) &&& 0xFFFFFFFF)) →
      b.length = 8192 ∧ b.take 4 = pack4 1 ∧ (b.drop 4).take 4 = pack4 i ∧
        (b.drop 8).take 4 = pack4 (crc32 (b.take 8)) ∧
        ∀ j, 12 ≤ j → j < 8192 → b.getD j 0 = 0xFF := by
  intro b hb
  rw [hb, setSlice_chain]
  obtain ⟨hl, ht4, hd4, hd8, ht8, hrest⟩ := fourChunks (pack4 1) (pack4 i)
    (pack4 (crc32 (pack4 1 ++ pack4 i) &&& 0xFFFFFFFF)) (pack4_length 1) (pack4_length i)
    (pack4_length _)
  refine ⟨hl, ht4, hd4, ?_, hrest⟩
  rw [hd8, ht8, land_mask32, pack4_mod32]

lemma create_otadata_of_none (t : String) (h : otaMap t = none) :
    create_otadata t = none := by
  unfold create_otadata
  rw [h]

lemma create_otadata_of_some (t : String) (i : Nat) (h : otaMap t = some i) :
    create_otadata t = some (setSlice (setSlice (setSlice (List.replicate 8192 255) 0
      (pack4 1)) 4 (pack4 i)) 8 (pack4 (crc32 (pack4 1 ++ pack4 i) &&& 0xFFFFFFFF))) := by
  unfold create_otadata
  rw [h]

lemma create_switch_of_none (t : String) (h : appMap t = none) :
    create_otadata_switch t = none := by
  unfold create_otadata_switch
  rw [h]

lemma create_switch_of_some (t : String) (i : Nat) (h : appMap t = some i) :
    create_otadata_switch t = some (setSlice (setSlice (setSlice (List.replicate 8192 255) 0
      (pack4 1)) 4 (pack4 i)) 8 (pack4 (crc32 (pack4 1 ++ pack4 i) &&& 0xFFFFFFFF))) := by
  unfold create_otadata_switch
  rw [h]

lemma otaMap_none_iff (t : String) :
    otaMap t = none ↔ ¬(t = "ota_0" ∨ t = "ota_1" ∨ t = "ota_2") := by
  unfold otaMap
  split_ifs <;> simp_all

lemma appMap_none_iff (t : String) :
    appMap t = none ↔ ¬(t = "app0" ∨ t = "app1") := by
  unfold appMap
  split_ifs <;> simp_all

/-- C5: for every valid boot target, `create_otadata` and `create_otadata_switch`
return an 8192-byte buffer holding sequence 1 (little-endian), the selected index
(little-endian), the CRC-32 of those 8 bytes (little-endian), and 0xFF everywhere
else including the entire second slot at byte 4096; neither builder fails on a
valid input. -/
theorem C5_selector_builder (t1 t2 : String) (i1 i2 : Nat)
    (h1 : otaMap t1 = some i1) (h2 : appMap t2 = some i2) :
    SlotSpec create_otadata t1 i1 ∧ SlotSpec create_otadata_switch t2 i2 := by
  constructor
  · exact ⟨_, create_otadata_of_some t1 i1 h1, slot_spec_of_chain i1 _ rfl⟩
  · exact ⟨_, create_switch_of_some t2 i2 h2, slot_spec_of_chain i2 _ rfl⟩

/-- Witness for C5 at the concrete targets `ota_1` and `app0`. -/
theorem C5_selector_builder_witness :
    otaMap "ota_1" = some 1 ∧ appMap "app0" = some 0 ∧
      (SlotSpec create_otadata "ota_1" 1 ∧ SlotSpec create_otadata_switch "app0" 0) :=
  ⟨by decide, by decide, C5_selector_builder "ota_1" "app0" 1 0 (by decide) (by decide)⟩

/-- C10: each selector builder raises `ValueError` (modelled as `none`) exactly on
the strings that are not keys of its boot-target map: `create_otadata` accepts
exactly `ota_0`, `ota_1`, `ota_2`, and `create_otadata_switch` accepts exactly
`app0`, `app1`. -/
theorem C10_builder_value_error (t : String) :
    (create_otadata t = none ↔ ¬(t = "ota_0" ∨ t = "ota_1" ∨ t = "ota_2")) ∧
    (create_otadata_switch t = none ↔ ¬(t = "app0" ∨ t = "app1")) := by
  constructor
  · rw [← otaMap_none_iff]
    constructor
    · intro h
      cases hm : otaMap t with
      | none => rfl
      | some i => rw [create_otadata_of_some t i hm] at h; exact Option.noConfusion h
    · exact create_otadata_of_none t
  · rw [← appMap_none_iff]
    constructor
    · intro h
      cases hm : appMap t with
      | none => rfl
      | some i => rw [create_switch_of_some t i hm] at h; exact Option.noConfusion h
    · exact create_switch_of_none t

/-- A concrete selector record with a correct checksum (sequence 1, index 0). -/
def sampleRecord : List Nat := [1, 0, 0, 0, 0, 0, 0, 0] ++ pack4 (crc32 [1, 0, 0, 0, 0, 0, 0, 0])

/-- C4: selector validation recomputes CRC-32 over the first 8 bytes of the 12-byte
record and compares it with the stored checksum: success returns exactly the decoded
sequence and selected index and happens exactly when the checksum matches, any
mismatch fails, and flipping any single bit among the first 8 bytes of a record that
validated successfully makes validation fail. -/
theorem C4_validate_checksum (r : List Nat) (hlen : r.length = 12) :
    (∀ s, validate r = some s ↔
      (crc32 (r.take 8) = le32 (r.drop 8) ∧
        s = { sequence := le32 (r.take 4), selected_index := le32 ((r.drop 4).take 4) })) ∧
    (validate r = none ↔ crc32 (r.take 8) ≠ le32 (r.drop 8)) ∧
    (∀ j k, j < 8 → k < 8 → validate r ≠ none → validate (flipBit r j k) = none) := by
  refine ⟨?_, ?_, ?_⟩
  · intro s
    unfold validate
    by_cases hc : crc32 (r.take 8) = le32 (r.drop 8)
    · rw [if_pos hc]
      constructor
      · intro h
        injection h with h2
        exact ⟨hc, h2.symm⟩
      · rintro ⟨_, rfl⟩
        rfl
    · rw [if_neg hc]
      constructor
      · intro h
        exact Option.noConfusion h
      · rintro ⟨hc2, _⟩
        exact absurd hc2 hc
  · unfold validate
    by_cases hc : crc32 (r.take 8) = le32 (r.drop 8)
    · rw [if_pos hc]
      simp [hc]
    · rw [if_neg hc]
      simp [hc]
  · intro j k hj hk hsome
    have hc : crc32 (r.take 8) = le32 (r.drop 8) := by
      by_contra hne
      apply hsome
      unfold validate
      rw [if_neg hne]
    have htake : (flipBit r j k).take 8 = (r.take 8).set j (r.getD j 0 ^^^ (1 <<< k)) := by
      unfold flipBit
      rw [List.set_take]
    have hdrop : (flipBit r j k).drop 8 = r.drop 8 := by
      unfold flipBit
      rw [List.drop_set, if_pos (by omega)]
    have hlen8 : (r.take 8).length = 8 := by
      rw [List.length_take]
      omega
    have hgd : r.getD j 0 = (r.take 8).getD j 0 := (getD_take r j 8 0 (by omega)).symm
    have hzip : (r.take 8).set j ((r.take 8).getD j 0 ^^^ (1 <<< k))
        = zipXor (r.take 8) ((List.replicate 8 0).set j (1 <<< k)) := by
      have h2 := zipXor_set (r.take 8) j (1 <<< k) (by omega)
      rw [hlen8] at h2
      exact h2.symm
    have hcrc : crc32 ((flipBit r j k).take 8)
        = crc32 (r.take 8) ^^^ crcAux ((List.replicate 8 0).set j (1 <<< k)) 0 := by
      rw [htake, hgd, hzip]
      exact crc32_zipXor _ _ (by rw [hlen8]; simp)
    have hne : crc32 ((flipBit r j k).take 8) ≠ le32 ((flipBit r j k).drop 8) := by
      rw [hcrc, hdrop, ← hc]
      intro heq
      have hzero : crcAux ((List.replicate 8 0).set j (1 <<< k)) 0 = 0 := by
        apply xor_left_cancel (crc32 (r.take 8))
        rw [Nat.xor_zero]
        exact heq
      exact crcDelta_ne_zero j hj k hk hzero
    unfold validate
    rw [if_neg hne]

/-- Witness for C4 at a concrete 12-byte record with a correct checksum. -/
theorem C4_validate_checksum_witness :
    sampleRecord.length = 12 ∧
      ((∀ s, validate sampleRecord = some s ↔
        (crc32 (sampleRecord.take 8) = le32 (sampleRecord.drop 8) ∧
          s = { sequence := le32 (sampleRecord.take 4)
              , selected_index := le32 ((sampleRecord.drop 4).take 4) })) ∧
      (validate sampleRecord = none ↔
        crc32 (sampleRecord.take 8) ≠ le32 (sampleRecord.drop 8)) ∧
      (∀ j k, j < 8 → k < 8 → validate sampleRecord ≠ none →
        validate (flipBit sampleRecord j k) = none)) :=
  ⟨by decide, C4_validate_checksum sampleRecord (by decide)⟩

lemma le16_cons (a b : Nat) (rest : List Nat) : le16 (a :: b :: rest) = a + 256 * b := by
  simp [le16]

lemma drop_app4 (A Y : List Nat) (hA : A.length = 4) (n : Nat) :
    (A ++ Y).drop (4 + n) = Y.drop n := by
  rw [← List.drop_drop, List.drop_left' hA]

lemma asciiIgnore_members (l : List Nat) (h : asciiIgnore l = l) : ∀ b ∈ l, b < 128 := by
  intro b hb
  have h2 := List.filter_eq_self.mp h b hb
  simpa using h2

/-- C9: a partition entry whose fields are in range (label of at most 16 ASCII bytes
with no trailing NUL, byte type and subtype, 32-bit offset, size and flags)
round-trips: decoding its 32-byte encoding returns exactly the entry. -/
theorem C9_roundtrip (e : PartitionEntry)
    (hlab : e.label.length ≤ 16)
    (hascii : asciiIgnore e.label = e.label)
    (htrim : rstripNul e.label = e.label)
    (hpt : e.part_type < 256) (hst : e.subtype < 256)
    (hoff : e.offset < 4294967296) (hsz : e.size < 4294967296)
    (hfl : e.flags < 4294967296) :
    decode_entry (encode e) = some e := by
  rcases e with ⟨lab, pt, st, off, sz, fl⟩
  simp only at hlab hascii htrim hpt hst hoff hsz hfl
  have hw : encode ⟨lab, pt, st, off, sz, fl⟩
      = 0xAA :: 0x50 :: pt :: st :: (pack4 off ++ (pack4 sz
          ++ ((lab ++ List.replicate (16 - lab.length) 0) ++ pack4 fl))) := rfl
  have hL : (lab ++ List.replicate (16 - lab.length) 0).length = 16 := by
    rw [List.length_append, List.length_replicate]
    omega
  rw [hw]
  unfold decode_entry
  rw [if_pos (by rw [le16_cons])]
  refine congrArg some ?_
  rw [PartitionEntry.mk.injEq]
  have hdrop4 : (0xAA :: 0x50 :: pt :: st :: (pack4 off ++ (pack4 sz
      ++ ((lab ++ List.replicate (16 - lab.length) 0) ++ pack4 fl)))).drop 4
      = pack4 off ++ (pack4 sz
          ++ ((lab ++ List.replicate (16 - lab.length) 0) ++ pack4 fl)) := rfl
  have hdrop8 : (0xAA :: 0x50 :: pt :: st :: (pack4 off ++ (pack4 sz
      ++ ((lab ++ List.replicate (16 - lab.length) 0) ++ pack4 fl)))).drop 8
      = pack4 sz ++ ((lab ++ List.replicate (16 - lab.length) 0) ++ pack4 fl) := by
    have h4 : (0xAA :: 0x50 :: pt :: st :: (pack4 off ++ (pack4 sz
        ++ ((lab ++ List.replicate (16 - lab.length) 0) ++ pack4 fl)))).drop 8
        = (pack4 off ++ (pack4 sz
            ++ ((lab ++ List.replicate (16 - lab.length) 0) ++ pack4 fl))).drop 4 := rfl
    rw [h4, List.drop_left' (pack4_length off)]
  have hdrop12 : (0xAA :: 0x50 :: pt :: st :: (pack4 off ++ (pack4 sz
      ++ ((lab ++ List.replicate (16 - lab.length) 0) ++ pack4 fl)))).drop 12
      = (lab ++ List.replicate (16 - lab.length) 0) ++ pack4 fl := by
    have h4 : (0xAA :: 0x50 :: pt :: st :: (pack4 off ++ (pack4 sz
        ++ ((lab ++ List.replicate (16 - lab.length) 0) ++ pack4 fl)))).drop 12
        = (pack4 off ++ (pack4 sz
            ++ ((lab ++ List.replicate (16 - lab.length) 0) ++ pack4 fl))).drop 8 := rfl
    rw [h4, show (8 : Nat) = 4 + 4 from rfl, drop_app4 _ _ (pack4_length off),
      List.drop_left' (pack4_length sz)]
  have hdrop28 : (0xAA :: 0x50 :: pt :: st :: (pack4 off ++ (pack4 sz
      ++ ((lab ++ List.replicate (16 - lab.length) 0) ++ pack4 fl)))).drop 28
      = pack4 fl := by
    have h4 : (0xAA :: 0x50 :: pt :: st :: (pack4 off ++ (pack4 sz
        ++ ((lab ++ List.replicate (16 - lab.length) 0) ++ pack4 fl)))).drop 28
        = (pack4 off ++ (pack4 sz
            ++ ((lab ++ List.replicate (16 - lab.length) 0) ++ pack4 fl))).drop 24 := rfl
    rw [h4, show (24 : Nat) = 4 + 20 from rfl, drop_app4 _ _ (pack4_length off),
      show (20 : Nat) = 4 + 16 from rfl, drop_app4 _ _ (pack4_length sz),
      List.drop_left' hL]
  refine ⟨?_, by rfl, by rfl, ?_, ?_, ?_⟩
  · unfold decodeLabel
    rw [hdrop12, List.take_left' hL]
    have hall : ∀ b ∈ lab ++ List.replicate (16 - lab.length) 0, b < 128 := by
      intro b hb
      rcases List.mem_append.mp hb with hb | hb
      · exact asciiIgnore_members lab hascii b hb
      · rcases List.mem_replicate.mp hb with ⟨_, rfl⟩
        omega
    rw [asciiIgnore_of_bytes _ hall, rstripNul_append_replicate, htrim]
  · rw [hdrop4, le32_pack4_append off _ hoff]
  · rw [hdrop8, le32_pack4_append sz _ hsz]
  · rw [hdrop28]
    have h5 : le32 (pack4 fl) = fl := by
      have h6 := le32_pack4_append fl [] hfl
      simpa using h6
    exact h5

/-- Witness for C9 at a concrete in-range entry (the `nvs` data partition of the
analyzed device). -/
theorem C9_roundtrip_witness :
    (([0x6E, 0x76, 0x73] : List Nat).length ≤ 16 ∧
      asciiIgnore [0x6E, 0x76, 0x73] = [0x6E, 0x76, 0x73] ∧
      rstripNul [0x6E, 0x76, 0x73] = [0x6E, 0x76, 0x73]) ∧
    decode_entry (encode { label := [0x6E, 0x76, 0x73], part_type := 1, subtype := 2
                         , offset := 0x9000, size := 0x6000, flags := 0 })
      = some { label := [0x6E, 0x76, 0x73], part_type := 1, subtype := 2
             , offset := 0x9000, size := 0x6000, flags := 0 } :=
  ⟨⟨by decide, by decide, by decide⟩,
    C9_roundtrip _ (by decide) (by decide) (by decide) (by decide) (by decide) (by decide)
      (by decide) (by decide)⟩

/-- C1 (amended): on a 32-byte window of byte values, `parse_partition_table`
produces an entry exactly when the little-endian magic is 0x50AA, i.e. when the
first two bytes are `AA 50`; the scanner magic test accepts exactly the
little-endian value 0xAA50, i.e. first two bytes `50 AA`; and a nonempty scan of a
lone window implies the scanner byte order.  The two decoders therefore disagree
on every window starting with either byte pair, instead of both accepting `50 AA`. -/
theorem C1_magic_bytes (w : List Nat) (hlen : w.length = 32) (hb : ∀ b ∈ w, b < 256) :
    (parse_partition_table w ≠ [] ↔ le16 w = 0x50AA) ∧
    (le16 w = 0x50AA ↔ (w.getD 0 0 = 0xAA ∧ w.getD 1 0 = 0x50)) ∧
    (le16 w = 0xAA50 ↔ (w.getD 0 0 = 0x50 ∧ w.getD 1 0 = 0xAA)) ∧
    (find_partition_table w ≠ [] → le16 w = 0xAA50) := by
  have h0 : w.getD 0 0 < 256 := hb _ (getD_mem w 0 0 (by omega))
  have h1 : w.getD 1 0 < 256 := hb _ (getD_mem w 1 0 (by omega))
  have hbytes := le16_bytes w h0 h1
  refine ⟨?_, hbytes.1, hbytes.2, ?_⟩
  · by_cases hm : le16 w = 0x50AA
    · rw [parsePT_valid w (by omega) hm]
      simp [hm]
    · by_cases hs : le16 w = 0xFFFF
      · rw [parsePT_sentinel w (by omega) hs]
        simp [hm]
      · rw [parsePT_skip w (by omega) hm hs, parsePT_short _ (by simp [hlen])]
        simp [hm]
  · intro hfind
    by_contra hm
    apply hfind
    unfold find_partition_table
    rw [findPT_unfold, if_neg (by omega)]
    have hdrop0 : w.drop 0 = w := List.drop_zero w
    rw [hdrop0, if_neg hm, findPT_unfold, if_pos (by omega)]

/-- C1 counterexample: the window whose first two bytes are the literal pair
`50 AA` is rejected by `parse_partition_table` (its little-endian magic is 0xAA50,
not 0x50AA), while a window starting `AA 50` is accepted, so the parser does not
decode the literal sequence `50 AA` and the two components disagree. -/
theorem C1_magic_counterexample :
    (0x50 :: 0xAA :: List.replicate 30 0 : List Nat).getD 0 0 = 0x50 ∧
    (0x50 :: 0xAA :: List.replicate 30 0 : List Nat).getD 1 0 = 0xAA ∧
    parse_partition_table (0x50 :: 0xAA :: List.replicate 30 0) = [] ∧
    parse_partition_table (0xAA :: 0x50 :: List.replicate 30 0) ≠ [] := by decide

/-- Witness for C1 at the window `AA 50` followed by thirty zero bytes. -/
theorem C1_magic_bytes_witness :
    ((0xAA :: 0x50 :: List.replicate 30 0 : List Nat).length = 32 ∧
      (∀ b ∈ (0xAA :: 0x50 :: List.replicate 30 0 : List Nat), b < 256)) ∧
    ((parse_partition_table (0xAA :: 0x50 :: List.replicate 30 0) ≠ [] ↔
        le16 (0xAA :: 0x50 :: List.replicate 30 0) = 0x50AA) ∧
      (le16 (0xAA :: 0x50 :: List.replicate 30 0) = 0x50AA ↔
        ((0xAA :: 0x50 :: List.replicate 30 0 : List Nat).getD 0 0 = 0xAA ∧
          (0xAA :: 0x50 :: List.replicate 30 0 : List Nat).getD 1 0 = 0x50)) ∧
      (le16 (0xAA :: 0x50 :: List.replicate 30 0) = 0xAA50 ↔
        ((0xAA :: 0x50 :: List.replicate 30 0 : List Nat).getD 0 0 = 0x50 ∧
          (0xAA :: 0x50 :: List.replicate 30 0 : List Nat).getD 1 0 = 0xAA)) ∧
      (find_partition_table (0xAA :: 0x50 :: List.replicate 30 0) ≠ [] →
        le16 (0xAA :: 0x50 :: List.replicate 30 0) = 0xAA50)) :=
  ⟨⟨by decide, by decide⟩, C1_magic_bytes _ (by decide) (by decide)⟩

/-- C2 (amended): `parse_partition_table` does not stop at a window whose magic is
neither the valid magic nor the 0xFFFF sentinel — it skips those 32 bytes and keeps
parsing, so entries found after an invalid window are still collected. -/
theorem C2_invalid_window_skipped (data : List Nat) (h : 32 ≤ data.length)
    (hm : le16 data ≠ 0x50AA) (hs : le16 data ≠ 0xFFFF) :
    parse_partition_table data = parse_partition_table (data.drop 32) :=
  parsePT_skip data h hm hs

/-- C2 counterexample: a region whose first window has magic 0 (invalid, not the
sentinel) followed by a valid window yields one entry — the parser skipped the
invalid window instead of stopping and returning the empty prefix. -/
theorem C2_counterexample :
    le16 (List.replicate 32 0 ++ (0xAA :: 0x50 :: List.replicate 30 0)) = 0 ∧
    parse_partition_table (List.replicate 32 0 ++ (0xAA :: 0x50 :: List.replicate 30 0))
      ≠ [] := by decide

/-- Witness for C2 at the same concrete region. -/
theorem C2_invalid_window_skipped_witness :
    (32 ≤ (List.replicate 32 0 ++ (0xAA :: 0x50 :: List.replicate 30 0) : List Nat).length ∧
      le16 (List.replicate 32 0 ++ (0xAA :: 0x50 :: List.replicate 30 0)) ≠ 0x50AA ∧
      le16 (List.replicate 32 0 ++ (0xAA :: 0x50 :: List.replicate 30 0)) ≠ 0xFFFF) ∧
    parse_partition_table (List.replicate 32 0 ++ (0xAA :: 0x50 :: List.replicate 30 0))
      = parse_partition_table
          ((List.replicate 32 0 ++ (0xAA :: 0x50 :: List.replicate 30 0)).drop 32) :=
  ⟨⟨by decide, by decide, by decide⟩,
    C2_invalid_window_skipped _ (by decide) (by decide) (by decide)⟩

/-- C3 (amended): every entry the scanner reports satisfies the bounds check the
code actually performs — `0 < offset < image length` and `0 < size < image length`
— which does not imply `offset + size ≤ image length`. -/
theorem C3_scanner_bounds (data : List Nat) (loc : TableLocation) (e : SEntry)
    (hloc : loc ∈ find_partition_table data) (he : e ∈ loc.partitions) :
    0 < e.offset ∧ e.offset < data.length ∧ 0 < e.size ∧ e.size < data.length :=
  (findPTAux_inv _ data 0 loc hloc).2.2.2 e he

/-- C3 counterexample: on a 64-byte image the scanner reports an entry with
offset 63 and size 63, whose sum 126 exceeds the image length 64. -/
theorem C3_counterexample :
    find_partition_table img64
      = [{ location := 0
         , partitions := [{ label := [], type := 0, subtype := 0, offset := 63, size := 63 }] }] ∧
    img64.length = 64 ∧ img64.length < 63 + 63 := by decide

/-- Witness for C3 at the 64-byte image. -/
theorem C3_scanner_bounds_witness :
    (({ location := 0
      , partitions := [{ label := [], type := 0, subtype := 0, offset := 63, size := 63 }] }
        : TableLocation) ∈ find_partition_table img64 ∧
      ({ label := [], type := 0, subtype := 0, offset := 63, size := 63 } : SEntry) ∈
        ({ location := 0
         , partitions := [{ label := [], type := 0, subtype := 0, offset := 63, size := 63 }] }
          : TableLocation).partitions) ∧
    (0 < ({ label := [], type := 0, subtype := 0, offset := 63, size := 63 } : SEntry).offset ∧
      ({ label := [], type := 0, subtype := 0, offset := 63, size := 63 } : SEntry).offset
        < img64.length ∧
      0 < ({ label := [], type := 0, subtype := 0, offset := 63, size := 63 } : SEntry).size ∧
      ({ label := [], type := 0, subtype := 0, offset := 63, size := 63 } : SEntry).size
        < img64.length) :=
  ⟨⟨by decide, by decide⟩,
    C3_scanner_bounds img64
      { location := 0
      , partitions := [{ label := [], type := 0, subtype := 0, offset := 63, size := 63 }] }
      { label := [], type := 0, subtype := 0, offset := 63, size := 63 }
      (by decide) (by decide)⟩

lemma parsePT_append_stopped (ws : List (List Nat)) (data : List Nat)
    (hws : ∀ w ∈ ws, w.length = 32 ∧ le16 w = 0x50AA)
    (hstop : parse_partition_table data = []) :
    parse_partition_table (ws.flatten ++ data) = parse_partition_table ws.flatten := by
  induction ws with
  | nil =>
    rw [show ([] : List (List Nat)).flatten = [] from rfl, List.nil_append, hstop,
      parsePT_short [] (by simp)]
  | cons w ws ih =>
    have hw := hws w (List.mem_cons_self w ws)
    have hws2 : ∀ v ∈ ws, v.length = 32 ∧ le16 v = 0x50AA :=
      fun v hv => hws v (List.mem_cons_of_mem w hv)
    have hstep : ∀ X : List Nat, parse_partition_table (w ++ X)
        = decodeP w :: parse_partition_table X := by
      intro X
      rw [parsePT_valid (w ++ X) (by rw [List.length_append, hw.1]; omega)
        ((le16_append w X (by rw [hw.1]; omega)).trans hw.2),
        List.take_left' hw.1, List.drop_left' hw.1]
    rw [List.flatten_cons, List.append_assoc, hstep (ws.flatten ++ data),
      hstep ws.flatten, ih hws2]

/-- C6: a 32-byte window starting with the bytes `FF FF` always stops entry
collection as a success, in both components, regardless of its remaining 30 bytes:
the parser returns nothing from the sentinel on (so after a run of valid windows it
returns exactly the entries collected before the sentinel), and the scanner inner
parse loop collects nothing from the sentinel position on. -/
theorem C6_sentinel_stop (ws : List (List Nat)) (data img : List Nat) (pos : Nat)
    (hd : 32 ≤ data.length) (h0 : data.getD 0 0 = 0xFF) (h1 : data.getD 1 0 = 0xFF)
    (hws : ∀ w ∈ ws, w.length = 32 ∧ le16 w = 0x50AA)
    (hpos : pos + 32 ≤ img.length) (hi0 : (img.drop pos).getD 0 0 = 0xFF)
    (hi1 : (img.drop pos).getD 1 0 = 0xFF) :
    parse_partition_table data = [] ∧
    parse_partition_table (ws.flatten ++ data) = parse_partition_table ws.flatten ∧
    scanEntries img pos = [] := by
  have hsent : le16 data = 0xFFFF := by
    unfold le16
    rw [h0, h1]
  have hstop := parsePT_sentinel data hd hsent
  refine ⟨hstop, parsePT_append_stopped ws data hws hstop, ?_⟩
  have hsent2 : le16 ((img.drop pos).take 32) = 0xFFFF := by
    rw [le16_take _ 32 (by omega)]
    unfold le16
    rw [hi0, hi1]
  exact scanEntries_stop img pos hpos (by rw [hsent2]; decide)

/-- Witness for C6: one valid window, then a sentinel window with nonzero trailing
bytes, scanned both as a parser region and as a scanner image at position 0. -/
theorem C6_sentinel_stop_witness :
    (32 ≤ (0xFF :: 0xFF :: List.replicate 30 7 : List Nat).length ∧
      (0xFF :: 0xFF :: List.replicate 30 7 : List Nat).getD 0 0 = 0xFF ∧
      (0xFF :: 0xFF :: List.replicate 30 7 : List Nat).getD 1 0 = 0xFF ∧
      (∀ w ∈ [0xAA :: 0x50 :: List.replicate 30 0], w.length = 32 ∧ le16 w = 0x50AA) ∧
      0 + 32 ≤ (0xFF :: 0xFF :: List.replicate 30 7 : List Nat).length ∧
      ((0xFF :: 0xFF :: List.replicate 30 7 : List Nat).drop 0).getD 0 0 = 0xFF ∧
      ((0xFF :: 0xFF :: List.replicate 30 7 : List Nat).drop 0).getD 1 0 = 0xFF) ∧
    (parse_partition_table (0xFF :: 0xFF :: List.replicate 30 7) = [] ∧
      parse_partition_table ([0xAA :: 0x50 :: List.replicate 30 0].flatten
          ++ (0xFF :: 0xFF :: List.replicate 30 7))
        = parse_partition_table [0xAA :: 0x50 :: List.replicate 30 0].flatten ∧
      scanEntries (0xFF :: 0xFF :: List.replicate 30 7) 0 = []) :=
  ⟨⟨by decide, by decide, by decide, by decide, by decide, by decide, by decide⟩,
    C6_sentinel_stop [0xAA :: 0x50 :: List.replicate 30 0]
      (0xFF :: 0xFF :: List.replicate 30 7) (0xFF :: 0xFF :: List.replicate 30 7) 0
      (by decide) (by decide) (by decide) (by decide) (by decide) (by decide) (by decide)⟩

/-- C7 (amended): unknown part_type codes render as `type_<hex>` in
`parse_partition_table` and as `0x<HEX>` in the scanner rendering; an unknown
subtype under a known type renders as `subtype_<hex>` (parser) or `0x<HEX>`
(scanner); but in `parse_partition_table` the subtype of an entry whose part_type is
itself unknown renders as the empty string, not as a generic label; decoding itself
never fails on unknown codes — the entry is still collected. -/
theorem C7_type_names (pt st su sd : Nat) (w : List Nat)
    (hpt0 : pt ≠ 0x00) (hpt1 : pt ≠ 0x01)
    (hsu : su ≠ 0x00 ∧ su ≠ 0x10 ∧ su ≠ 0x11 ∧ su ≠ 0x12 ∧ su ≠ 0x20)
    (hsd : sd ≠ 0x00 ∧ sd ≠ 0x01 ∧ sd ≠ 0x02 ∧ sd ≠ 0x03 ∧ sd ≠ 0x04 ∧ sd ≠ 0x05 ∧
      sd ≠ 0x82 ∧ sd ≠ 0x83)
    (hw : 32 ≤ w.length) (hm : le16 w = 0x50AA) :
    type_name pt = "type_" ++ hex2 pt ∧
    subtype_name pt st = "" ∧
    subtype_name 0x00 su = "subtype_" ++ hex2 su ∧
    subtype_name 0x01 sd = "subtype_" ++ hex2 sd ∧
    scanTypeStr pt = "0x" ++ hex2U pt ∧
    scanSubtypeStr pt st = "0x" ++ hex2U st ∧
    scanSubtypeStr 0x00 su = "0x" ++ hex2U su ∧
    scanSubtypeStr 0x01 sd = "0x" ++ hex2U sd ∧
    parse_partition_table w = decodeP (w.take 32) :: parse_partition_table (w.drop 32) ∧
    (decodeP (w.take 32)).type = type_name ((w.take 32).getD 2 0) ∧
    (decodeP (w.take 32)).subtype
      = subtype_name ((w.take 32).getD 2 0) ((w.take 32).getD 3 0) := by
  obtain ⟨hsu0, hsu1, hsu2, hsu3, hsu4⟩ := hsu
  obtain ⟨hsd0, hsd1, hsd2, hsd3, hsd4, hsd5, hsd6, hsd7⟩ := hsd
  refine ⟨?_, ?_, ?_, ?_, ?_, ?_, ?_, ?_, parsePT_valid w hw hm, rfl, rfl⟩
  · simp [type_name, hpt0, hpt1]
  · simp [subtype_name, hpt0, hpt1]
  · simp [subtype_name, hsu0, hsu1, hsu2, hsu3, hsu4]
  · simp [subtype_name, hsd0, hsd1, hsd2, hsd3, hsd4, hsd5, hsd6, hsd7]
  · simp [scanTypeStr, hpt0, hpt1]
  · simp [scanSubtypeStr, hpt0, hpt1]
  · simp [scanSubtypeStr, hsu0, hsu1, hsu2]
  · simp [scanSubtypeStr, hsd0, hsd1, hsd2, hsd6]

/-- C7 counterexample: a decoded entry with unknown part_type 0x02 and subtype 0x05
gets the empty string as its subtype name in `parse_partition_table`, not the
generic `subtype_05` label; the scanner meanwhile renders the same codes as `0x02`
and `0x05`, not `type_02`/`subtype_05`. -/
theorem C7_counterexample :
    (parse_partition_table (0xAA :: 0x50 :: 0x02 :: 0x05 :: List.replicate 28 0)).map
        PEntry.subtype = [""] ∧
    subtype_name 0x02 0x05 = "" ∧
    ("" : String) ≠ "subtype_" ++ hex2 0x05 ∧
    scanTypeStr 0x02 = "0x02" ∧
    scanSubtypeStr 0x02 0x05 = "0x05" ∧
    ("0x02" : String) ≠ "type_" ++ hex2 0x02 := by decide

/-- Witness for C7 at part_type 2 and subtype 9. -/
theorem C7_type_names_witness :
    ((2 : Nat) ≠ 0x00 ∧ (2 : Nat) ≠ 0x01 ∧
      ((9 : Nat) ≠ 0x00 ∧ (9 : Nat) ≠ 0x10 ∧ (9 : Nat) ≠ 0x11 ∧ (9 : Nat) ≠ 0x12 ∧
        (9 : Nat) ≠ 0x20) ∧
      ((9 : Nat) ≠ 0x00 ∧ (9 : Nat) ≠ 0x01 ∧ (9 : Nat) ≠ 0x02 ∧ (9 : Nat) ≠ 0x03 ∧
        (9 : Nat) ≠ 0x04 ∧ (9 : Nat) ≠ 0x05 ∧ (9 : Nat) ≠ 0x82 ∧ (9 : Nat) ≠ 0x83) ∧
      32 ≤ (0xAA :: 0x50 :: 2 :: 9 :: List.replicate 28 0 : List Nat).length ∧
      le16 (0xAA :: 0x50 :: 2 :: 9 :: List.replicate 28 0) = 0x50AA) ∧
    (type_name 2 = "type_" ++ hex2 2 ∧
      subtype_name 2 9 = "" ∧
      subtype_name 0x00 9 = "subtype_" ++ hex2 9 ∧
      subtype_name 0x01 9 = "subtype_" ++ hex2 9 ∧
      scanTypeStr 2 = "0x" ++ hex2U 2 ∧
      scanSubtypeStr 2 9 = "0x" ++ hex2U 9 ∧
      scanSubtypeStr 0x00 9 = "0x" ++ hex2U 9 ∧
      scanSubtypeStr 0x01 9 = "0x" ++ hex2U 9 ∧
      parse_partition_table (0xAA :: 0x50 :: 2 :: 9 :: List.replicate 28 0)
        = decodeP ((0xAA :: 0x50 :: 2 :: 9 :: List.replicate 28 0 : List Nat).take 32)
          :: parse_partition_table
            ((0xAA :: 0x50 :: 2 :: 9 :: List.replicate 28 0 : List Nat).drop 32) ∧
      (decodeP ((0xAA :: 0x50 :: 2 :: 9 :: List.replicate 28 0 : List Nat).take 32)).type
        = type_name (((0xAA :: 0x50 :: 2 :: 9 :: List.replicate 28 0 : List Nat).take 32).getD
            2 0) ∧
      (decodeP ((0xAA :: 0x50 :: 2 :: 9 :: List.replicate 28 0 : List Nat).take 32)).subtype
        = subtype_name
            (((0xAA :: 0x50 :: 2 :: 9 :: List.replicate 28 0 : List Nat).take 32).getD 2 0)
            (((0xAA :: 0x50 :: 2 :: 9 :: List.replicate 28 0 : List Nat).take 32).getD 3 0)) :=
  ⟨⟨by decide, by decide, ⟨by decide, by decide, by decide, by decide, by decide⟩,
      ⟨by decide, by decide, by decide, by decide, by decide, by decide, by decide, by decide⟩,
      by decide, by decide⟩,
    C7_type_names 2 9 9 9 (0xAA :: 0x50 :: 2 :: 9 :: List.replicate 28 0)
      (by decide) (by decide)
      ⟨by decide, by decide, by decide, by decide, by decide⟩
      ⟨by decide, by decide, by decide, by decide, by decide, by decide, by decide, by decide⟩
      (by decide) (by decide)⟩

/-- C8: the scanner reports locations in strictly ascending offset order, every
reported offset is a multiple of the 4096-byte stride (so a table at an unaligned
offset is never reported), and every reported location holds at least one entry. -/
theorem C8_scanner_locations (data : List Nat) :
    ((find_partition_table data).map TableLocation.location).Pairwise (· < ·) ∧
    ∀ loc ∈ find_partition_table data, loc.location % 4096 = 0 ∧ loc.partitions ≠ [] := by
  constructor
  · exact findPTAux_sorted _ data 0
  · intro loc hloc
    have h := findPTAux_inv _ data 0 loc hloc
    have h2 := h.2.1
    exact ⟨by omega, h.2.2.1⟩

/-- Witness for C8 at the 64-byte image of C3. -/
theorem C8_scanner_locations_witness :
    (({ location := 0
      , partitions := [{ label := [], type := 0, subtype := 0, offset := 63, size := 63 }] }
        : TableLocation) ∈ find_partition_table img64) ∧
    (({ location := 0
      , partitions := [{ label := [], type := 0, subtype := 0, offset := 63, size := 63 }] }
        : TableLocation).location % 4096 = 0 ∧
      ({ location := 0
       , partitions := [{ label := [], type := 0, subtype := 0, offset := 63, size := 63 }] }
        : TableLocation).partitions ≠ []) :=
  ⟨by decide,
    (C8_scanner_locations img64).2
      { location := 0
      , partitions := [{ label := [], type := 0, subtype := 0, offset := 63, size := 63 }] }
      (by decide)⟩

end ESP32
